import Mathlib

/-!
Shallow embedding of `src/m365/entra/commands/approleassignment/approleassignment-list.ts`
(the `entra approleassignment list` command of cli-microsoft365), together with
theorems settling the stated claims about it.

Conventions of the embedding:
* Optional TypeScript fields (`string | undefined`) become `Option String`;
  JavaScript `===` on such fields becomes `==` on `Option String`.
* Network calls (`request.get`) become oracle parameters of type
  `... → Except String ...`; a `throw` of a string becomes `Except.error`.
* The `Promise.all` fan-out becomes `List.mapM` over the `Except` monad, and
  the list of issued fetches is tracked explicitly (all tasks are created
  before the await, so the issued-fetch list does not depend on failures).
-/

namespace M365

/-- An app role exposed by a resource service principal (the `AppRole` shape
from microsoft-graph-types restricted to the fields the command reads:
`id` and `value`). -/
structure AppRole where
  id : Option String
  value : Option String
deriving DecidableEq, Repr

/-- An app role assignment as returned by the directory (fields the command
reads: `resourceId`, `appRoleId`, `resourceDisplayName`, `createdDateTime`,
`deletedDateTime`). -/
structure AppRoleAssignment where
  resourceId : Option String
  appRoleId : Option String
  resourceDisplayName : Option String
  createdDateTime : Option String
  deletedDateTime : Option String
deriving DecidableEq, Repr

/-- A service principal (fields the command reads: `id`, `appRoles`, and the
`appRoleAssignments` collection present on the `$expand=appRoleAssignments`
query). The command dereferences `appRoles!` and `appRoleAssignments!` with
non-null assertions, so both are plain lists here. -/
structure ServicePrincipal where
  id : Option String
  appRoles : List AppRole
  appRoleAssignments : List AppRoleAssignment
deriving DecidableEq, Repr

/-- The enriched output record pushed into `results` at
approleassignment-list.ts lines 116-124. -/
structure EnrichedAssignment where
  appRoleId : Option String
  resourceDisplayName : Option String
  resourceId : Option String
  roleId : Option String
  roleName : Option String
  created : Option String
  deleted : Option String
deriving DecidableEq, Repr

/-- The command options (`appId`, `appDisplayName`, `appObjectId`), each
possibly absent. -/
structure Options where
  appId : Option String
  appDisplayName : Option String
  appObjectId : Option String
deriving DecidableEq, Repr

/-- JavaScript truthiness of an optional string option: `undefined` and the
empty string are falsy, every other string is truthy. -/
def truthy : Option String → Bool
  | none => false
  | some s => !s.isEmpty

/-- The body of the join loop (ts lines 110-126) once the resource lookup
result is at hand: if a resource was found, search its `appRoles` for the
assignment's `appRoleId`; on a hit emit the enriched record, otherwise emit
nothing. -/
def emitResolved (a : AppRoleAssignment) : Option ServicePrincipal → Option EnrichedAssignment
  | none => none
  | some resource =>
    match resource.appRoles.find? (fun r => r.id == a.appRoleId) with
    | none => none
    | some appRole =>
      some { appRoleId := a.appRoleId
             resourceDisplayName := a.resourceDisplayName
             resourceId := a.resourceId
             roleId := appRole.id
             roleName := appRole.value
             created := a.createdDateTime
             deleted := a.deletedDateTime }

/-- One iteration of the join loop (ts lines 109-127): linear-search
`resources` for the first entry whose `id` equals the assignment's
`resourceId`, then resolve the role. -/
def emit1 (resources : List ServicePrincipal) (a : AppRoleAssignment) : Option EnrichedAssignment :=
  emitResolved a (resources.find? (fun r => r.id == a.resourceId))

/-- The join of ts lines 108-127: iterate over `spAppRoleAssignments` in
order, pushing an enriched record for each assignment that resolves and
silently skipping the rest. -/
def join (assignments : List AppRoleAssignment) (resources : List ServicePrincipal) :
    List EnrichedAssignment :=
  assignments.filterMap (emit1 resources)

/-- Decides whether a character is a hexadecimal digit (either case). -/
def isHexDigit (c : Char) : Bool :=
  c.isDigit || (decide ('a' ≤ c) && decide (c ≤ 'f')) || (decide ('A' ≤ c) && decide (c ≤ 'F'))

/-- Modelled from the spec: `validation.isValidGuid` lives in
`utils/validation`, which is outside this repository slice; per spec section 8
it accepts exactly the canonical GUID textual form, 8-4-4-4-12 hexadecimal
digits separated by hyphens, case-insensitive. -/
def isValidGuid (s : String) : Bool :=
  let cs := s.toList
  cs.length == 36 &&
    (List.range 36).all (fun i =>
      if i == 8 || i == 13 || i == 18 || i == 23 then cs.getD i ' ' == '-'
      else isHexDigit (cs.getD i ' '))

/-- The validator installed by initValidators (ts lines 67-81): when a truthy
`appId` is not a valid GUID, return the message naming it; else when a truthy
`appObjectId` is not a valid GUID, return the message naming it; otherwise
return `true`. A returned message is a validation failure, modelled as
`Except.error`. -/
def guidValidator (o : Options) : Except String Bool :=
  if truthy o.appId && !isValidGuid (o.appId.getD "") then
    .error (o.appId.getD "" ++ " is not a valid GUID")
  else if truthy o.appObjectId && !isValidGuid (o.appObjectId.getD "") then
    .error (o.appObjectId.getD "" ++ " is not a valid GUID")
  else
    .ok true

/-- Number of supplied (defined) options among `appId`, `appObjectId`,
`appDisplayName`. -/
def suppliedCount (o : Options) : Nat :=
  (if o.appId.isSome then 1 else 0) + (if o.appObjectId.isSome then 1 else 0) +
    (if o.appDisplayName.isSome then 1 else 0)

/-- Modelled from the spec: the enforcement of the option set declared by
initOptionSets (ts line 84) lives in the CLI framework outside this
repository slice; per the spec exactly one of the three options must be
supplied. -/
def optionSetCheck (o : Options) : Bool := suppliedCount o == 1

/-- The single-quote character used around filter values. -/
def quoteChar : String := String.singleton (Char.ofNat 39)

/-- The filter expression of ts lines 147-149: exact match on `appId` when it
is truthy, else exact match on `displayName`. The parameter `enc` stands for
`formatting.encodeQueryParameter`, which is outside this repository slice and
irrelevant to the claims; it is kept abstract. -/
def spMatchQuery (enc : String → String) (o : Options) : String :=
  if truthy o.appId then
    "appId eq " ++ quoteChar ++ enc (o.appId.getD "") ++ quoteChar
  else
    "displayName eq " ++ quoteChar ++ enc (o.appDisplayName.getD "") ++ quoteChar

/-- `getAppRoleAssignments` (ts lines 136-158). The two oracles stand for the
network calls `getSPAppRoleAssignments` (GET the assignments of a service
principal by object id) and `getServicePrincipalForApp` (GET service
principals matching a filter, assignments expanded); both may fail with a
transport error. With a truthy `appObjectId` the assignments are fetched
directly and an empty collection is the failure
`"no app role assignments found"`; otherwise the filter query runs, an empty
result is the failure `"app registration not found"`, and the first returned
service principal's embedded assignment collection is used. -/
def getAppRoleAssignments (enc : String → String)
    (f1 : String → Except String (List AppRoleAssignment))
    (f2 : String → Except String (List ServicePrincipal))
    (o : Options) : Except String (List AppRoleAssignment) :=
  if truthy o.appObjectId then
    match f1 (o.appObjectId.getD "") with
    | .error e => .error e
    | .ok vs => if vs.isEmpty then .error "no app role assignments found" else .ok vs
  else
    match f2 (spMatchQuery enc o) with
    | .error e => .error e
    | .ok [] => .error "app registration not found"
    | .ok (sp :: _) => .ok sp.appRoleAssignments

/-- Model of `Promise.all` over the resource fetches (ts lines 99-104): all
results are collected in order, and any single failure makes the whole
barrier fail with that failure's error. -/
def fetchAll (f3 : Option String → Except String ServicePrincipal) :
    List (Option String) → Except String (List ServicePrincipal)
  | [] => .ok []
  | rid :: rest =>
    match f3 rid with
    | .error e => .error e
    | .ok sp =>
      match fetchAll f3 rest with
      | .error e => .error e
      | .ok sps => .ok (sp :: sps)

/-- `commandAction` (ts lines 91-134). The oracle `f3` stands for
`getServicePrincipal` (GET one service principal by id); the `resourceId` of
every assignment (duplicates preserved, in assignment order) is fetched and
the join runs on the results. Besides the command's result the list of
issued resource fetches is returned; since in the source every task is
created before `Promise.all` is awaited, that list is the full `resourceIds`
whenever the assignments resolve, regardless of fetch failures. -/
def commandAction (enc : String → String)
    (f1 : String → Except String (List AppRoleAssignment))
    (f2 : String → Except String (List ServicePrincipal))
    (f3 : Option String → Except String ServicePrincipal)
    (o : Options) : Except String (List EnrichedAssignment) × List (Option String) :=
  match getAppRoleAssignments enc f1 f2 o with
  | .error e => (.error e, [])
  | .ok spAppRoleAssignments =>
    let resourceIds := spAppRoleAssignments.map (fun item => item.resourceId)
    match fetchAll f3 resourceIds with
    | .error e => (.error e, resourceIds)
    | .ok resources => (.ok (join spAppRoleAssignments resources), resourceIds)

/-- Modelled from the spec: the message the framework surfaces when the
option-set rule is violated (its exact wording lives outside this slice). -/
def optionSetErrorMessage : String :=
  "specify one of the following options: appId, appObjectId, appDisplayName"

/-- Modelled from the spec: the CLI framework (outside this repository slice)
enforces the declared option set and runs the validators before
`commandAction`; a validation failure is surfaced immediately and no network
access is attempted (the issued-fetch list is empty). -/
def runCommand (enc : String → String)
    (f1 : String → Except String (List AppRoleAssignment))
    (f2 : String → Except String (List ServicePrincipal))
    (f3 : Option String → Except String ServicePrincipal)
    (o : Options) : Except String (List EnrichedAssignment) × List (Option String) :=
  if optionSetCheck o then
    match guidValidator o with
    | .error m => (.error m, [])
    | .ok _ => commandAction enc f1 f2 f3 o
  else
    (.error optionSetErrorMessage, [])

/-- The distinct resource ids of an assignment list, for the reimplementation
suggested by spec section 9. -/
def dedupResourceIds (A : List AppRoleAssignment) : List (Option String) :=
  (A.map (fun a => a.resourceId)).dedup

/-- A lookup table keyed by resource id, holding one fetched service
principal per distinct resource id. -/
def resourceLookupTable (fetch : Option String → ServicePrincipal)
    (A : List AppRoleAssignment) : List (Option String × ServicePrincipal) :=
  (dedupResourceIds A).map (fun rid => (rid, fetch rid))

/-- Looks a resource id up in the table. -/
def lookupById (table : List (Option String × ServicePrincipal)) (rid : Option String) :
    Option ServicePrincipal :=
  (table.find? (fun p => p.1 == rid)).map (fun p => p.2)

/-- Modelled from the spec (section 9 design note): deduplicate the resource
ids, fetch each distinct id exactly once, build a lookup keyed by resource
id, and join through that lookup. Returns the enriched records and the list
of issued fetches. -/
def refinedPipeline (fetch : Option String → ServicePrincipal)
    (A : List AppRoleAssignment) : List EnrichedAssignment × List (Option String) :=
  let table := resourceLookupTable fetch A
  (A.filterMap (fun a => emitResolved a (lookupById table a.resourceId)),
   dedupResourceIds A)

/- Concrete fixtures used by the witness theorems. -/

/-- A concrete app role for witnesses. -/
def roleReader : AppRole := { id := some "role1", value := some "Reader" }

/-- A concrete resource service principal for witnesses. -/
def spR1 : ServicePrincipal :=
  { id := some "r1", appRoles := [roleReader], appRoleAssignments := [] }

/-- A concrete assignment that resolves against `spR1`. -/
def asgn1 : AppRoleAssignment :=
  { resourceId := some "r1", appRoleId := some "role1"
    resourceDisplayName := some "R One", createdDateTime := some "2020-01-01"
    deletedDateTime := none }

/-- A concrete assignment whose `resourceId` matches no resource. -/
def asgnMiss : AppRoleAssignment :=
  { resourceId := some "zz", appRoleId := some "role1"
    resourceDisplayName := some "Gone", createdDateTime := none
    deletedDateTime := none }

/-- The record `join [asgn1] [spR1]` emits. -/
def enriched1 : EnrichedAssignment :=
  { appRoleId := some "role1", resourceDisplayName := some "R One"
    resourceId := some "r1", roleId := some "role1", roleName := some "Reader"
    created := some "2020-01-01", deleted := none }

/-- A second concrete assignment sharing the resource of `asgn1` but carrying
a role id the resource does not declare. -/
def asgn2 : AppRoleAssignment :=
  { resourceId := some "r1", appRoleId := some "role2"
    resourceDisplayName := some "R One", createdDateTime := none
    deletedDateTime := none }

/-- Identity encoder used by witnesses in place of
`formatting.encodeQueryParameter`. -/
def encId : String → String := fun s => s

/-- A well-behaved resource fetcher for witnesses: the returned service
principal carries the requested id. -/
def fetchc : Option String → ServicePrincipal :=
  fun rid => { id := rid, appRoles := [roleReader], appRoleAssignments := [] }

/-- Assignment oracle answering the empty collection. -/
def f1empty : String → Except String (List AppRoleAssignment) := fun _ => .ok []

/-- Assignment oracle answering `[asgn1, asgn2]`. -/
def f1pair : String → Except String (List AppRoleAssignment) := fun _ => .ok [asgn1, asgn2]

/-- Filter-query oracle matching no service principal. -/
def f2none : String → Except String (List ServicePrincipal) := fun _ => .ok []

/-- Filter-query oracle matching two service principals. -/
def f2two : String → Except String (List ServicePrincipal) :=
  fun _ => .ok [spR1, { id := some "r2", appRoles := [], appRoleAssignments := [] }]

/-- Resource fetcher oracle that always succeeds, wrapping `fetchc`. -/
def f3ok : Option String → Except String ServicePrincipal := fun rid => .ok (fetchc rid)

/-- Resource fetcher oracle that always fails. -/
def f3fail : Option String → Except String ServicePrincipal := fun _ => .error "transport down"

/-- Options selecting a service principal by object id. -/
def oObjId : Options :=
  { appId := none, appDisplayName := none
    appObjectId := some "11111111-1111-1111-1111-111111111111" }

/-- Options selecting an application by app id. -/
def oAppId : Options :=
  { appId := some "22222222-2222-2222-2222-222222222222"
    appDisplayName := none, appObjectId := none }

/-- Options carrying a malformed app id. -/
def oBadGuid : Options :=
  { appId := some "not-a-guid", appDisplayName := none, appObjectId := none }

/-- Options carrying the empty string as app id. -/
def oEmptyId : Options :=
  { appId := some "", appDisplayName := none, appObjectId := none }

/-- Options supplying none of the three selectors. -/
def oNone : Options := { appId := none, appDisplayName := none, appObjectId := none }

/-- A service principal with an empty embedded assignment collection. -/
def spEmpty : ServicePrincipal :=
  { id := some "sp0", appRoles := [], appRoleAssignments := [] }

/-- Filter-query oracle matching exactly one service principal, one whose
embedded assignment collection is empty. -/
def f2oneEmpty : String → Except String (List ServicePrincipal) := fun _ => .ok [spEmpty]

/-- A resource carrying the id `r1` but declaring no roles; placed before
`spR1` it shadows it in the linear search. -/
def spR1bare : ServicePrincipal :=
  { id := some "r1", appRoles := [], appRoleAssignments := [] }

/- Helper lemmas about the join. -/

theorem join_nil (R : List ServicePrincipal) : join [] R = [] := rfl

theorem join_append (A₁ A₂ : List AppRoleAssignment) (R : List ServicePrincipal) :
    join (A₁ ++ A₂) R = join A₁ R ++ join A₂ R := by
  simp [join, List.filterMap_append]

theorem join_append_cons (A₁ A₂ : List AppRoleAssignment) (a : AppRoleAssignment)
    (R : List ServicePrincipal) :
    join (A₁ ++ a :: A₂) R = join A₁ R ++ (emit1 R a).toList ++ join A₂ R := by
  rcases h : emit1 R a with _ | e <;>
    simp [join, List.filterMap_append, List.filterMap_cons, h]

theorem emit1_none_of_unmatched (R : List ServicePrincipal) (a : AppRoleAssignment)
    (h : (∀ sp ∈ R, sp.id ≠ a.resourceId) ∨
         (∃ sp, R.find? (fun r => r.id == a.resourceId) = some sp ∧
            ∀ role ∈ sp.appRoles, role.id ≠ a.appRoleId)) :
    emit1 R a = none := by
  rcases h with h | ⟨sp, hfind, hroles⟩
  · have hr : R.find? (fun r => r.id == a.resourceId) = none := by
      rw [List.find?_eq_none]
      intro sp hsp
      simp only [beq_iff_eq]
      exact h sp hsp
    simp [emit1, hr, emitResolved]
  · have hroles2 : sp.appRoles.find? (fun r => r.id == a.appRoleId) = none := by
      rw [List.find?_eq_none]
      intro role hrole
      simp only [beq_iff_eq]
      exact hroles role hrole
    simp [emit1, hfind, emitResolved, hroles2]

/- Claim theorems about the join. -/

/-- Claim C1: every `EnrichedAssignment` emitted by the join comes from some
input assignment and some resource in the resource list whose `id` equals the
assignment's `resourceId`; the record's `roleId` equals the source
assignment's `appRoleId`, its `resourceId` equals the matched resource's
`id`, and its `roleName` is the `value` of an `AppRole` of that matched
resource whose `id` equals that same `appRoleId`. Hence no emitted record
references a resource or role absent from the resource list. -/
theorem join_records_sound (A : List AppRoleAssignment) (R : List ServicePrincipal)
    (e : EnrichedAssignment) (he : e ∈ join A R) :
    ∃ a ∈ A, ∃ sp ∈ R,
      sp.id = a.resourceId ∧
      e.roleId = a.appRoleId ∧
      e.resourceId = sp.id ∧
      ∃ role ∈ sp.appRoles, role.id = a.appRoleId ∧ e.roleName = role.value := by
  rw [join, List.mem_filterMap] at he
  obtain ⟨a, ha, hemit⟩ := he
  rcases hr : R.find? (fun r => r.id == a.resourceId) with _ | sp
  · rw [emit1, hr] at hemit
    simp [emitResolved] at hemit
  · have hspmem : sp ∈ R := List.mem_of_find?_eq_some hr
    have hspid : sp.id = a.resourceId := by
      have := List.find?_some hr
      exact eq_of_beq this
    rw [emit1, hr] at hemit
    rcases hrole : sp.appRoles.find? (fun r => r.id == a.appRoleId) with _ | role
    · rw [emitResolved, hrole] at hemit
      exact absurd hemit (by simp)
    · have hrolemem : role ∈ sp.appRoles := List.mem_of_find?_eq_some hrole
      have hroleid : role.id = a.appRoleId := by
        have := List.find?_some hrole
        exact eq_of_beq this
      rw [emitResolved, hrole] at hemit
      have he2 := Option.some_injective _ hemit
      refine ⟨a, ha, sp, hspmem, hspid, ?_, ?_, role, hrolemem, hroleid, ?_⟩
      · rw [← he2]
        exact hroleid
      · rw [← he2, hspid]
      · rw [← he2]

/-- Witness for C1 at a concrete input: `enriched1` is emitted by
`join [asgn1] [spR1]` and the soundness conclusion holds for it. -/
theorem join_records_sound_witness :
    enriched1 ∈ join [asgn1] [spR1] ∧
    ∃ a ∈ [asgn1], ∃ sp ∈ [spR1],
      sp.id = a.resourceId ∧
      enriched1.roleId = a.appRoleId ∧
      enriched1.resourceId = sp.id ∧
      ∃ role ∈ sp.appRoles, role.id = a.appRoleId ∧ enriched1.roleName = role.value :=
  ⟨by decide, join_records_sound [asgn1] [spR1] enriched1 (by decide)⟩

/-- Claim C4: the output of the join follows the order of the input
assignments (each assignment contributes its record, if any, exactly where
the assignment sits relative to the others), with dropped assignments
skipped; decomposing the input around any assignment decomposes the output
accordingly, so output ordering is assignment-order. -/
theorem join_preserves_assignment_order (A₁ A₂ : List AppRoleAssignment)
    (a : AppRoleAssignment) (R : List ServicePrincipal) :
    join (A₁ ++ a :: A₂) R = join A₁ R ++ (emit1 R a).toList ++ join A₂ R :=
  join_append_cons A₁ A₂ a R

/-- Claim C5: an assignment whose `resourceId` matches no resource's `id`, or
whose `appRoleId` matches no role in the matched resource's `appRoles` (the
matched resource being the first one the linear search finds), produces no
output record and raises no error: removing it from the input leaves the
join output of the remaining assignments unchanged. -/
theorem join_drops_unmatched (A₁ A₂ : List AppRoleAssignment) (a : AppRoleAssignment)
    (R : List ServicePrincipal)
    (h : (∀ sp ∈ R, sp.id ≠ a.resourceId) ∨
         (∃ sp, R.find? (fun r => r.id == a.resourceId) = some sp ∧
            ∀ role ∈ sp.appRoles, role.id ≠ a.appRoleId)) :
    join (A₁ ++ a :: A₂) R = join A₁ R ++ join A₂ R := by
  rw [join_append_cons, emit1_none_of_unmatched R a h]
  simp

/-- Witness for C5 at a concrete input: against `[spR1bare, spR1]` the linear
search matches `spR1bare`, which declares no roles, so `asgn1` is dropped
even though a later resource with the same id carries its role; dropping it
leaves the output of the remaining assignments unchanged. -/
theorem join_drops_unmatched_witness :
    ([spR1bare, spR1].find? (fun r => r.id == asgn1.resourceId) = some spR1bare) ∧
    join ([asgnMiss] ++ asgn1 :: [asgnMiss]) [spR1bare, spR1] =
      join [asgnMiss] [spR1bare, spR1] ++ join [asgnMiss] [spR1bare, spR1] :=
  ⟨by decide,
   join_drops_unmatched [asgnMiss] [asgnMiss] asgn1 [spR1bare, spR1]
     (Or.inr ⟨spR1bare, by decide, by decide⟩)⟩

theorem fetchAll_error_of_mem_error (f : Option String → Except String ServicePrincipal) :
    ∀ (l : List (Option String)) (x : Option String), x ∈ l →
      ∀ e, f x = .error e →
      ∃ e2, fetchAll f l = .error e2 ∧ ∃ x2 ∈ l, f x2 = .error e2 := by
  intro l
  induction l with
  | nil => intro x hx; cases hx
  | cons a as ih =>
    intro x hx e hfx
    cases hfa : f a with
    | error ea =>
      exact ⟨ea, by simp [fetchAll, hfa], a, List.mem_cons_self a as, hfa⟩
    | ok ya =>
      rcases List.mem_cons.mp hx with rfl | hx2
      · simp [hfa] at hfx
      · obtain ⟨e2, hm, x2, hx2m, hfx2⟩ := ih x hx2 e hfx
        exact ⟨e2, by simp [fetchAll, hfa, hm], x2, List.mem_cons_of_mem a hx2m, hfx2⟩

theorem commandAction_eq_of_ok (enc : String → String)
    (f1 : String → Except String (List AppRoleAssignment))
    (f2 : String → Except String (List ServicePrincipal))
    (f3 : Option String → Except String ServicePrincipal) (o : Options)
    (A : List AppRoleAssignment)
    (hok : getAppRoleAssignments enc f1 f2 o = .ok A) :
    commandAction enc f1 f2 f3 o =
      match fetchAll f3 (A.map (fun a => a.resourceId)) with
      | .error e => (.error e, A.map (fun a => a.resourceId))
      | .ok resources => (.ok (join A resources), A.map (fun a => a.resourceId)) := by
  unfold commandAction
  rw [hok]

/-- Claim C2, amended: with a truthy `appObjectId` and a successful direct
fetch, the result is the error `"no app role assignments found"` exactly when
the fetched assignment collection is empty; without a truthy `appObjectId`
and with a successful filter query, the result is the distinct error
`"app registration not found"` exactly when the query matches zero service
principals, while a non-empty match returns the first service principal's
embedded collection with no emptiness check (an empty collection yields an
empty success, not the zero-assignments error, which is raised only on the
`appObjectId` path); and any such failure of `getAppRoleAssignments` is
terminal in `commandAction`, which then issues no resource fetch and runs no
join. -/
theorem notFound_errors (enc : String → String)
    (f1 : String → Except String (List AppRoleAssignment))
    (f2 : String → Except String (List ServicePrincipal))
    (f3 : Option String → Except String ServicePrincipal) (o : Options) :
    (∀ vs, truthy o.appObjectId = true → f1 (o.appObjectId.getD "") = .ok vs →
      ((getAppRoleAssignments enc f1 f2 o = .error "no app role assignments found") ↔
        vs = [])) ∧
    (∀ vs, truthy o.appObjectId = false → f2 (spMatchQuery enc o) = .ok vs →
      ((getAppRoleAssignments enc f1 f2 o = .error "app registration not found") ↔
        vs = [])) ∧
    (∀ sp rest, truthy o.appObjectId = false → f2 (spMatchQuery enc o) = .ok (sp :: rest) →
      getAppRoleAssignments enc f1 f2 o = .ok sp.appRoleAssignments) ∧
    (∀ e, getAppRoleAssignments enc f1 f2 o = .error e →
      commandAction enc f1 f2 f3 o = (.error e, [])) := by
  refine ⟨?_, ?_, ?_, ?_⟩
  · intro vs htr hf1
    rcases vs with _ | ⟨v, vs⟩ <;> simp [getAppRoleAssignments, htr, hf1]
  · intro vs htr hf2
    rcases vs with _ | ⟨sp, vs⟩ <;> simp [getAppRoleAssignments, htr, hf2]
  · intro sp rest htr hf2
    simp [getAppRoleAssignments, htr, hf2]
  · intro e herr
    simp [commandAction, herr]

/-- Counterexample to C2 as stated: with the `appId` selector the filter
query resolves to a service principal with zero app role assignments, yet
the result is the empty success, not
`.error "no app role assignments found"` — the zero-assignments check exists
only on the `appObjectId` path (ts line 156 returns
`resp.value[0].appRoleAssignments!` unchecked). -/
theorem notFound_errors_counterexample :
    f2oneEmpty (spMatchQuery encId oAppId) = .ok [spEmpty] ∧
    spEmpty.appRoleAssignments = [] ∧
    getAppRoleAssignments encId f1empty f2oneEmpty oAppId = .ok [] ∧
    getAppRoleAssignments encId f1empty f2oneEmpty oAppId ≠
      .error "no app role assignments found" := by
  refine ⟨rfl, rfl, rfl, ?_⟩
  intro h
  rw [show getAppRoleAssignments encId f1empty f2oneEmpty oAppId =
    .ok ([] : List AppRoleAssignment) from rfl] at h
  exact Except.noConfusion h

/-- Witness for C2: scenario A (an object id whose service principal has zero
assignments fails with `"no app role assignments found"`, and the failure is
terminal with no resource fetch issued), scenario B (an app id matching no
service principal fails with `"app registration not found"`), and the
amended filter-path behavior (an app id resolving to a service principal
with zero assignments succeeds with the empty collection). -/
theorem notFound_errors_witness :
    getAppRoleAssignments encId f1empty f2none oObjId =
      .error "no app role assignments found" ∧
    getAppRoleAssignments encId f1empty f2none oAppId =
      .error "app registration not found" ∧
    getAppRoleAssignments encId f1empty f2oneEmpty oAppId = .ok spEmpty.appRoleAssignments ∧
    commandAction encId f1empty f2none f3ok oObjId =
      (.error "no app role assignments found", []) := by
  have hA := ((notFound_errors encId f1empty f2none f3ok oObjId).1 [] (by decide) rfl).mpr rfl
  have hB := ((notFound_errors encId f1empty f2none f3ok oAppId).2.1 [] (by decide) rfl).mpr rfl
  have hC := (notFound_errors encId f1empty f2oneEmpty f3ok oAppId).2.2.1 spEmpty []
    (by decide) rfl
  exact ⟨hA, hB, hC, (notFound_errors encId f1empty f2none f3ok oObjId).2.2.2 _ hA⟩

/-- Claim C7: when the filter query succeeds with more than one service
principal, the embedded `appRoleAssignments` collection of the first one
returned is used and no error is raised. -/
theorem first_match_used (enc : String → String)
    (f1 : String → Except String (List AppRoleAssignment))
    (f2 : String → Except String (List ServicePrincipal)) (o : Options)
    (sp sp2 : ServicePrincipal) (rest : List ServicePrincipal)
    (hobj : truthy o.appObjectId = false)
    (hq : f2 (spMatchQuery enc o) = .ok (sp :: sp2 :: rest)) :
    getAppRoleAssignments enc f1 f2 o = .ok sp.appRoleAssignments := by
  simp [getAppRoleAssignments, hobj, hq]

/-- Witness for C7: a query matching two service principals yields the first
one's (empty) embedded assignment collection. -/
theorem first_match_used_witness :
    getAppRoleAssignments encId f1empty f2two oAppId = .ok spR1.appRoleAssignments :=
  first_match_used encId f1empty f2two oAppId spR1
    { id := some "r2", appRoles := [], appRoleAssignments := [] } [] (by decide) rfl

/-- Claim C6: once the assignments resolve, `commandAction` issues exactly
one resource fetch per assignment entry, duplicates included, in assignment
order; when every fetch succeeds the join runs on all results, and when the
fetching fails the whole invocation fails with a failing fetch's error and no
enriched record is produced. -/
theorem fanout_per_assignment (enc : String → String)
    (f1 : String → Except String (List AppRoleAssignment))
    (f2 : String → Except String (List ServicePrincipal))
    (f3 : Option String → Except String ServicePrincipal) (o : Options)
    (A : List AppRoleAssignment)
    (hok : getAppRoleAssignments enc f1 f2 o = .ok A) :
    (commandAction enc f1 f2 f3 o).2 = A.map (fun a => a.resourceId) ∧
    (∀ R, fetchAll f3 (A.map (fun a => a.resourceId)) = .ok R →
      (commandAction enc f1 f2 f3 o).1 = .ok (join A R)) ∧
    (∀ e, fetchAll f3 (A.map (fun a => a.resourceId)) = .error e →
      (commandAction enc f1 f2 f3 o).1 = .error e) ∧
    (∀ rid, rid ∈ A.map (fun a => a.resourceId) → ∀ e, f3 rid = .error e →
      ∃ e2, (commandAction enc f1 f2 f3 o).1 = .error e2 ∧
        ∃ rid2 ∈ A.map (fun a => a.resourceId), f3 rid2 = .error e2) := by
  rw [commandAction_eq_of_ok enc f1 f2 f3 o A hok]
  refine ⟨?_, ?_, ?_, ?_⟩
  · rcases hm : fetchAll f3 (A.map (fun a => a.resourceId)) with e | R <;> simp [hm]
  · intro R hm
    simp [hm]
  · intro e hm
    simp [hm]
  · intro rid hrid e hfe
    obtain ⟨e2, hm, rid2, hmem, hf2e⟩ := fetchAll_error_of_mem_error f3 _ rid hrid e hfe
    exact ⟨e2, by simp [hm], rid2, hmem, hf2e⟩

/-- Witness for C6: two assignments sharing a resource id generate two
fetches of that same id, and a failing fetcher makes the whole invocation
fail with its error. -/
theorem fanout_per_assignment_witness :
    (commandAction encId f1pair f2none f3fail oObjId).2 = [some "r1", some "r1"] ∧
    (commandAction encId f1pair f2none f3fail oObjId).1 = .error "transport down" := by
  have h := fanout_per_assignment encId f1pair f2none f3fail oObjId [asgn1, asgn2] rfl
  exact ⟨h.1, h.2.2.1 "transport down" rfl⟩

/-- Claim C8: a truthy `appId` that is not a valid GUID fails validation with
the message naming the offending value, and so does a truthy `appObjectId`
(once `appId` passes its own check); when the checks pass the validator
returns `true`; and a validation failure on a well-formed selector set makes
the whole run fail with that message and zero network fetches issued. -/
theorem guid_validation (o : Options) :
    (∀ v, o.appId = some v → truthy o.appId = true → isValidGuid v = false →
      guidValidator o = .error (v ++ " is not a valid GUID")) ∧
    (∀ w, o.appObjectId = some w → truthy o.appObjectId = true → isValidGuid w = false →
      (truthy o.appId = false ∨ isValidGuid (o.appId.getD "") = true) →
      guidValidator o = .error (w ++ " is not a valid GUID")) ∧
    ((truthy o.appId = true → isValidGuid (o.appId.getD "") = true) →
     (truthy o.appObjectId = true → isValidGuid (o.appObjectId.getD "") = true) →
     guidValidator o = .ok true) ∧
    (∀ m, ∀ enc : String → String,
      ∀ f1 : String → Except String (List AppRoleAssignment),
      ∀ f2 : String → Except String (List ServicePrincipal),
      ∀ f3 : Option String → Except String ServicePrincipal,
      suppliedCount o = 1 → guidValidator o = .error m →
      runCommand enc f1 f2 f3 o = (.error m, [])) := by
  refine ⟨?_, ?_, ?_, ?_⟩
  · intro v hv htr hval
    rw [hv] at htr
    simp [guidValidator, hv, htr, hval]
  · intro w hw htr hval hfirst
    rw [hw] at htr
    have hc1 : (truthy o.appId && !isValidGuid (o.appId.getD "")) = false := by
      rcases hfirst with h | h <;> simp [h]
    simp [guidValidator, hc1, hw, htr, hval]
  · intro h1 h2
    have hc1 : (truthy o.appId && !isValidGuid (o.appId.getD "")) = false := by
      cases htr : truthy o.appId
      · simp
      · simp [h1 htr]
    have hc2 : (truthy o.appObjectId && !isValidGuid (o.appObjectId.getD "")) = false := by
      cases htr : truthy o.appObjectId
      · simp
      · simp [h2 htr]
    simp [guidValidator, hc1, hc2]
  · intro m enc f1 f2 f3 hsc herr
    have hset : optionSetCheck o = true := by simp [optionSetCheck, hsc]
    simp [runCommand, hset, herr]

/-- Witness for C8: scenario E, a malformed appId fails validation with the
message naming it, and the whole run fails with zero fetches issued. -/
theorem guid_validation_witness :
    isValidGuid "not-a-guid" = false ∧
    guidValidator oBadGuid = .error "not-a-guid is not a valid GUID" ∧
    runCommand encId f1empty f2none f3ok oBadGuid =
      (.error "not-a-guid is not a valid GUID", []) := by
  have h := guid_validation oBadGuid
  have h1 := h.1 "not-a-guid" rfl (by decide) (by decide)
  exact ⟨by decide, h1, h.2.2.2 _ encId f1empty f2none f3ok (by decide) h1⟩

/-- Claim C9: the exclusivity check passes exactly when the number of
supplied selectors among appId, appObjectId, appDisplayName is one; with
zero or several supplied selectors the run fails before any network access
(no fetch issued), and with exactly one supplied selector the run proceeds
past the exclusivity check to the command action (given the GUID validator
also passes). -/
theorem selector_exclusivity (enc : String → String)
    (f1 : String → Except String (List AppRoleAssignment))
    (f2 : String → Except String (List ServicePrincipal))
    (f3 : Option String → Except String ServicePrincipal) (o : Options) :
    (optionSetCheck o = true ↔ suppliedCount o = 1) ∧
    (suppliedCount o ≠ 1 →
      runCommand enc f1 f2 f3 o = (.error optionSetErrorMessage, [])) ∧
    (suppliedCount o = 1 → guidValidator o = .ok true →
      runCommand enc f1 f2 f3 o = commandAction enc f1 f2 f3 o) := by
  refine ⟨?_, ?_, ?_⟩
  · simp [optionSetCheck]
  · intro h
    have hset : optionSetCheck o = false := by simp [optionSetCheck, h]
    simp [runCommand, hset]
  · intro h hv
    have hset : optionSetCheck o = true := by simp [optionSetCheck, h]
    simp [runCommand, hset, hv]

/-- Witness for C9: supplying no selector fails with no fetch issued, while
supplying exactly the object id proceeds to the command action. -/
theorem selector_exclusivity_witness :
    suppliedCount oNone = 0 ∧
    runCommand encId f1empty f2none f3ok oNone = (.error optionSetErrorMessage, []) ∧
    runCommand encId f1empty f2none f3ok oObjId =
      commandAction encId f1empty f2none f3ok oObjId := by
  have h := selector_exclusivity encId f1empty f2none f3ok oNone
  have h2 := selector_exclusivity encId f1empty f2none f3ok oObjId
  exact ⟨rfl, h.2.1 (by decide), h2.2.2 (by decide) rfl⟩

/-- Claim C10: the GUID format check is applied only to truthy option values,
so an `appId` or `appObjectId` supplied as the empty string bypasses it and
the validator passes, although the empty string is not a valid GUID. -/
theorem empty_string_guid_bypass (o : Options) :
    isValidGuid "" = false ∧
    (o.appId = some "" →
      (truthy o.appObjectId = false ∨ isValidGuid (o.appObjectId.getD "") = true) →
      guidValidator o = .ok true) ∧
    (o.appObjectId = some "" →
      (truthy o.appId = false ∨ isValidGuid (o.appId.getD "") = true) →
      guidValidator o = .ok true) := by
  refine ⟨by decide, ?_, ?_⟩
  · intro h hother
    have hc1 : (truthy o.appId && !isValidGuid (o.appId.getD "")) = false := by
      rw [h]; decide
    have hc2 : (truthy o.appObjectId && !isValidGuid (o.appObjectId.getD "")) = false := by
      rcases hother with h2 | h2 <;> simp [h2]
    simp [guidValidator, hc1, hc2]
  · intro h hother
    have hc1 : (truthy o.appId && !isValidGuid (o.appId.getD "")) = false := by
      rcases hother with h2 | h2 <;> simp [h2]
    have hc2 : (truthy o.appObjectId && !isValidGuid (o.appObjectId.getD "")) = false := by
      rw [h]; decide
    simp [guidValidator, hc1, hc2]

/-- Witness for C10: an empty-string appId passes the validator even though
the empty string is not a valid GUID. -/
theorem empty_string_guid_bypass_witness :
    isValidGuid "" = false ∧ guidValidator oEmptyId = .ok true :=
  ⟨(empty_string_guid_bypass oEmptyId).1,
   (empty_string_guid_bypass oEmptyId).2.1 rfl (Or.inl rfl)⟩

theorem filterMap_ext {α β : Type} (f g : α → Option β) :
    ∀ l : List α, (∀ a ∈ l, f a = g a) → l.filterMap f = l.filterMap g := by
  intro l
  induction l with
  | nil => intro _; rfl
  | cons a as ih =>
    intro h
    rw [List.filterMap_cons, List.filterMap_cons, h a (List.mem_cons_self a as),
      ih (fun x hx => h x (List.mem_cons_of_mem a hx))]

theorem find_map_fetch (fetch : Option String → ServicePrincipal)
    (hf : ∀ rid, (fetch rid).id = rid) (rid : Option String) :
    ∀ ids : List (Option String),
      (ids.map fetch).find? (fun sp => sp.id == rid) =
        if rid ∈ ids then some (fetch rid) else none := by
  intro ids
  induction ids with
  | nil => simp
  | cons x xs ih =>
    rw [List.map_cons, List.find?_cons]
    by_cases hx : x = rid
    · subst hx
      simp [hf x]
    · have hx2 : ¬ rid = x := fun hh => hx hh.symm
      have hbe : ((fetch x).id == rid) = false := by simp [hf x, hx]
      simp [hbe, ih, hx2]

theorem lookup_table_eq (fetch : Option String → ServicePrincipal) (rid : Option String) :
    ∀ ids : List (Option String),
      lookupById (ids.map (fun i => (i, fetch i))) rid =
        if rid ∈ ids then some (fetch rid) else none := by
  intro ids
  induction ids with
  | nil => simp [lookupById]
  | cons x xs ih =>
    rw [List.map_cons]
    unfold lookupById
    rw [List.find?_cons]
    by_cases hx : x = rid
    · subst hx
      simp
    · have hx2 : ¬ rid = x := fun hh => hx hh.symm
      have hbe : (((x, fetch x)).1 == rid) = false := by simp [hx]
      simp only [hbe]
      have ih2 := ih
      unfold lookupById at ih2
      rw [ih2]
      simp [hx2]

theorem fetchAll_ok_map (fetch : Option String → ServicePrincipal) :
    ∀ ids : List (Option String),
      fetchAll (fun rid => .ok (fetch rid)) ids = .ok (ids.map fetch) := by
  intro ids
  induction ids with
  | nil => rfl
  | cons x xs ih => simp [fetchAll, ih]

theorem emit_refined_agrees (fetch : Option String → ServicePrincipal)
    (hf : ∀ rid, (fetch rid).id = rid) (A : List AppRoleAssignment)
    (a : AppRoleAssignment) :
    emitResolved a (lookupById (resourceLookupTable fetch A) a.resourceId) =
      emit1 ((A.map (fun x => x.resourceId)).map fetch) a := by
  rw [emit1, resourceLookupTable, lookup_table_eq fetch a.resourceId,
    find_map_fetch fetch hf a.resourceId, dedupResourceIds]
  simp [List.mem_dedup]

/-- Claim C3: assuming the directory returns, for each requested id, a
service principal carrying exactly that id, the reimplementation that
deduplicates the resource ids, fetches each distinct id once, and joins
through a lookup keyed by resource id produces the same output sequence as
the implemented pipeline (one fetch per assignment entry, duplicates
preserved, followed by the linear-search join); the implemented fetch list
is one entry per assignment while the refined fetch list holds each distinct
resource id exactly once. -/
theorem dedup_refinement (enc : String → String)
    (f1 : String → Except String (List AppRoleAssignment))
    (f2 : String → Except String (List ServicePrincipal))
    (fetch : Option String → ServicePrincipal) (o : Options)
    (A : List AppRoleAssignment)
    (hf : ∀ rid, (fetch rid).id = rid)
    (hok : getAppRoleAssignments enc f1 f2 o = .ok A) :
    (commandAction enc f1 f2 (fun rid => .ok (fetch rid)) o).1 =
      .ok (refinedPipeline fetch A).1 ∧
    (commandAction enc f1 f2 (fun rid => .ok (fetch rid)) o).2 =
      A.map (fun a => a.resourceId) ∧
    (refinedPipeline fetch A).2.Nodup ∧
    (∀ rid, rid ∈ (refinedPipeline fetch A).2 ↔ rid ∈ A.map (fun a => a.resourceId)) := by
  have hca2 : commandAction enc f1 f2 (fun rid => .ok (fetch rid)) o =
      (.ok (join A ((A.map (fun a => a.resourceId)).map fetch)),
       A.map (fun a => a.resourceId)) := by
    rw [commandAction_eq_of_ok enc f1 f2 (fun rid => .ok (fetch rid)) o A hok,
      fetchAll_ok_map fetch (A.map (fun a => a.resourceId))]
  have hjoin : A.filterMap (fun a =>
      emitResolved a (lookupById (resourceLookupTable fetch A) a.resourceId)) =
      A.filterMap (emit1 ((A.map (fun x => x.resourceId)).map fetch)) :=
    filterMap_ext _ _ A (fun a _ => emit_refined_agrees fetch hf A a)
  refine ⟨?_, ?_, ?_, ?_⟩
  · rw [hca2]
    show Except.ok (join A ((A.map (fun a => a.resourceId)).map fetch)) =
      Except.ok (refinedPipeline fetch A).1
    rw [join]
    exact congrArg Except.ok hjoin.symm
  · rw [hca2]
  · exact List.nodup_dedup (A.map (fun a => a.resourceId))
  · intro rid
    exact List.mem_dedup

/-- Witness for C3: two assignments sharing the resource id `r1` make the
implemented pipeline fetch `r1` twice while the refined pipeline fetches it
once, with identical joined output. -/
theorem dedup_refinement_witness :
    (commandAction encId f1pair f2none f3ok oObjId).1 =
      .ok (refinedPipeline fetchc [asgn1, asgn2]).1 ∧
    (commandAction encId f1pair f2none f3ok oObjId).2 = [some "r1", some "r1"] ∧
    (refinedPipeline fetchc [asgn1, asgn2]).2 = [some "r1"] := by
  have h := dedup_refinement encId f1pair f2none fetchc oObjId [asgn1, asgn2]
    (fun rid => rfl) rfl
  exact ⟨h.1, h.2.1, by simp [refinedPipeline, dedupResourceIds, asgn1, asgn2]⟩

end M365
